import Mathlib

/-!
Verification of the manifest-resolver core of `dp-secrets-helper`
(`src/system_manifests/mod.rs`), shallowly embedded in Lean.

Paths are modelled as lists of segments (`PathBuf::join root seg` becomes
list append of one segment).  The filesystem is modelled as a record of
total functions giving, for each path, the outcome of `std::fs::metadata`,
`std::fs::read_dir` and `std::fs::File::open` followed by splitting the
file into its YAML documents.  `anyhow` errors are modelled as strings,
`with_context` as prepending the context followed by a colon, matching the
alternate rendering of an anyhow context chain.
-/

/-- A filesystem path, as the list of its segments. -/
abbrev FsPath := List String

/-- Rendering of a path, standing in for `Path::display`. -/
def FsPath.display (p : FsPath) : String :=
  String.intercalate "/" p

/-- The kind of filesystem object `std::fs::metadata` reports. -/
inductive FileType where
  | dir
  | file
  | other
deriving DecidableEq, Repr

/-- An I/O error, as produced by `std::fs` calls. -/
inductive IoErr where
  | notFound
  | permissionDenied
  | otherErr (msg : String)
deriving DecidableEq, Repr

/-- Identity metadata of a decoded document, modelling `kube::core::ObjectMeta`
(only the fields the program touches are carried; absent fields are `none`,
matching serde defaults). -/
structure ObjectMeta where
  name : Option String := none
  nspace : Option String := none
  labels : Option (List (String × String)) := none
  annots : Option (List (String × String)) := none
deriving DecidableEq, Repr

/-- Modelling `kube::core::TypeMeta`. -/
structure TypeMeta where
  apiVersion : String
  kind : String
deriving DecidableEq, Repr

/-- Modelling `kube::api::DynamicObject`: optional type discriminator,
metadata, and an opaque generic payload. -/
structure DynamicObject where
  types : Option TypeMeta
  metadata : ObjectMeta
  data : List (String × String)
deriving DecidableEq, Repr

deriving instance DecidableEq for Except

/-- One YAML document of a manifest file.  A document is modelled by the
outcome of decoding it with `DynamicObject::deserialize`, which in the
source depends only on the document text, never on the file it came from. -/
structure YamlDoc where
  decodeResult : Except String DynamicObject
deriving DecidableEq, Repr

/-- `DynamicObject::deserialize(doc).map_err(anyhow::Error::from)`. -/
def deserialize (d : YamlDoc) : Except String DynamicObject :=
  d.decodeResult

/-- The filesystem as seen through the three `std::fs` entry points the
source uses.  `readDir` yields the directory entries in listing order, each
either an entry name or the error the iterator produced for it; `openFile`
yields the file's YAML document stream when the open succeeds. -/
structure Fs where
  metadata : FsPath → Except IoErr FileType
  readDir : FsPath → Except IoErr (List (Except IoErr String))
  openFile : FsPath → Except IoErr (List YamlDoc)

/-- `Path::is_dir` — metadata succeeded and reported a directory. -/
def isDirPath (fs : Fs) (p : FsPath) : Bool :=
  match fs.metadata p with
  | .ok .dir => true
  | _ => false

/-- `Path::is_file` — metadata succeeded and reported a regular file. -/
def isFilePath (fs : Fs) (p : FsPath) : Bool :=
  match fs.metadata p with
  | .ok .file => true
  | _ => false

/-- Index of the last `.` occurring at a position other than the start of
the file name, scanning with `i` as the index of the head of the list.
This is the dot that Rust's `Path::file_stem` / `Path::extension` split at. -/
def lastEmbeddedDot : List Char → Nat → Option Nat → Option Nat
  | [], _, acc => acc
  | c :: cs, i, acc =>
      lastEmbeddedDot cs (i + 1) (if c = '.' ∧ i ≠ 0 then some i else acc)

/-- Rust `Path::file_stem` applied to a file name: the portion before the
last embedded dot, or the whole name when there is none. -/
def fileStem (n : String) : String :=
  match lastEmbeddedDot n.toList 0 none with
  | none => n
  | some i => String.mk (n.toList.take i)

/-- Rust `Path::extension` applied to a file name: the portion after the
last embedded dot, `none` when there is none. -/
def fileExt (n : String) : Option String :=
  match lastEmbeddedDot n.toList 0 none with
  | none => none
  | some i => some (String.mk (n.toList.drop (i + 1)))

/-- `validate_directories_exist`: fail on the first path whose metadata
cannot be read ("Directory does not exist") or reports a non-directory
("Path exists but is not a directory"). -/
def validate_directories_exist (fs : Fs) : List FsPath → Except String Unit
  | [] => .ok ()
  | d :: rest =>
      match fs.metadata d with
      | .ok m =>
          if m ≠ .dir then
            .error ("Path exists but is not a directory: " ++ FsPath.display d)
          else
            validate_directories_exist fs rest
      | .error _ =>
          .error ("Directory does not exist: " ++ FsPath.display d)

/-- Rust `collect::<Result<Vec<_>>>` over the image of `f`: stop at the
first error, otherwise collect all results in order. -/
def collectResult {α β ε : Type} (f : α → Except ε β) : List α → Except ε (List β)
  | [] => .ok []
  | x :: xs =>
      match f x with
      | .error e => .error e
      | .ok y =>
          match collectResult f xs with
          | .error e => .error e
          | .ok ys => .ok (y :: ys)

/-- The entry loop of `get_cluster_names_from_clusters_directories`: an
erroring entry aborts the whole discovery; a directory entry contributes
the `file_stem` of its name; other entries are skipped.  (`to_str` cannot
fail in the model, where names are already strings.) -/
def clusterNamesLoop (fs : Fs) (d : FsPath) : List (Except IoErr String) → Except String (List String)
  | [] => .ok []
  | .error _ :: _ => .error "Failed to read a platform directory"
  | .ok n :: rest =>
      if isDirPath fs (d ++ [n]) then
        (clusterNamesLoop fs d rest).map (fileStem n :: ·)
      else
        clusterNamesLoop fs d rest

/-- `get_cluster_names_from_clusters_directories`. -/
def get_cluster_names_from_clusters_directories (fs : Fs) (clusters_directory : FsPath) :
    Except String (List String) :=
  match fs.readDir clusters_directory with
  | .error _ =>
      .error ("Failed to read clusters directory to discover platforms: "
        ++ FsPath.display clusters_directory)
  | .ok entries => clusterNamesLoop fs clusters_directory entries

/-- The entry loop of `get_component_names_from_manifest_directory`; same
shape as the platform one, with its own error messages. -/
def componentNamesLoop (fs : Fs) (d : FsPath) : List (Except IoErr String) → Except String (List String)
  | [] => .ok []
  | .error _ :: _ => .error "Failed to read the manifest directory"
  | .ok n :: rest =>
      if isDirPath fs (d ++ [n]) then
        (componentNamesLoop fs d rest).map (fileStem n :: ·)
      else
        componentNamesLoop fs d rest

/-- `get_component_names_from_manifest_directory`. -/
def get_component_names_from_manifest_directory (fs : Fs) (platform_manifests_directory : FsPath) :
    Except String (List String) :=
  match fs.readDir platform_manifests_directory with
  | .error _ =>
      .error ("Failed to read platform manifests directory to discover components: "
        ++ FsPath.display platform_manifests_directory)
  | .ok entries => componentNamesLoop fs platform_manifests_directory entries

/-- `Component` — name plus its own manifest directory. -/
structure Component where
  manifests_directory : FsPath
  name : String
deriving DecidableEq, Repr

/-- `Platform` — `Rc` sharing is irrelevant to the values, so components
are carried as plain values. -/
structure Platform where
  name : String
  environment_directory : FsPath
  cluster_directory : FsPath
  manifests_directory : FsPath
  components : List Component
deriving DecidableEq, Repr

/-- `SystemManifests`. -/
structure SystemManifests where
  directory : FsPath
  platforms : List Platform
deriving DecidableEq, Repr

/-- The component-construction closure inside `Platform::new`: join the
manifests directory with the component name, validate it, and build the
`Component`. -/
def buildComponent (fs : Fs) (manifests_directory : FsPath) (name : String) :
    Except String Component :=
  match validate_directories_exist fs [manifests_directory ++ [name]] with
  | .error e => .error ("Failed to obtain component manifest directory: " ++ e)
  | .ok _ =>
      .ok { name := name, manifests_directory := manifests_directory ++ [name] }

/-- `Platform::new`: derive the three convention directories, validate them
in one batch, then discover and validate the components. -/
def Platform.new (fs : Fs) (name : String) (system_manifest_directory : FsPath) :
    Except String Platform :=
  match validate_directories_exist fs
      [system_manifest_directory ++ ["environments", name],
        system_manifest_directory ++ ["clusters", name],
        system_manifest_directory ++ ["manifests", name]] with
  | .error e => .error ("Failed to obtain platform directories: " ++ e)
  | .ok _ =>
      match get_component_names_from_manifest_directory fs
          (system_manifest_directory ++ ["manifests", name]) with
      | .error e => .error e
      | .ok names =>
          match collectResult
              (buildComponent fs (system_manifest_directory ++ ["manifests", name])) names with
          | .error e => .error e
          | .ok components =>
              .ok { name := name
                    environment_directory := system_manifest_directory ++ ["environments", name]
                    cluster_directory := system_manifest_directory ++ ["clusters", name]
                    manifests_directory := system_manifest_directory ++ ["manifests", name]
                    components := components }

/-- `SystemManifests::new` (the `cli.system_manifests` root is taken as a
path argument): validate the clusters directory, discover the platform
names, and build every platform, failing on the first failure. -/
def SystemManifests.new (fs : Fs) (directory : FsPath) : Except String SystemManifests :=
  match validate_directories_exist fs [directory ++ ["clusters"]] with
  | .error e => .error ("Failed to obtain clusters directory: " ++ e)
  | .ok _ =>
      match get_cluster_names_from_clusters_directories fs (directory ++ ["clusters"]) with
      | .error e => .error e
      | .ok names =>
          match collectResult (fun n => Platform.new fs n directory) names with
          | .error e => .error e
          | .ok platforms => .ok { directory := directory, platforms := platforms }

/-- `ManifestResource` — a decoded document with its provenance. -/
structure ManifestResource where
  file : FsPath
  component : Component
  platform : Platform
  resource : DynamicObject
deriving DecidableEq, Repr

/-- `FlatManifestResource` — the consumer-facing projection. -/
structure FlatManifestResource where
  file : FsPath
  component_name : String
  platform_name : String
  resource_meta : ObjectMeta
deriving DecidableEq, Repr

/-- `impl From<ManifestResource> for FlatManifestResource`. -/
def FlatManifestResource.ofManifestResource (value : ManifestResource) : FlatManifestResource :=
  { file := value.file
    component_name := value.component.name
    platform_name := value.platform.name
    resource_meta := value.resource.metadata }

/-- The extension test of the walker's filter:
`extension().map_or(false, |ext| ext == "yaml" || ext == "yml")`. -/
def extIsYaml (n : String) : Bool :=
  match fileExt n with
  | some e => e = "yaml" || e = "yml"
  | none => false

/-- The filter predicate inside `PlatformResourceIterator::new`: keep a
successfully read entry iff its path is a regular file with extension
exactly `yaml` or `yml`; keep every erroring entry (the source comments
this branch `propagate errors`). -/
def keepEntry (fs : Fs) (c : Component) : Except IoErr String → Bool
  | .ok n => isFilePath fs (c.manifests_directory ++ [n]) && extIsYaml n
  | .error _ => true

/-- The per-component listing stage: `read_dir(..).into_iter().flat_map(..)`
— when `read_dir` itself fails the `Result::into_iter` adapter yields
nothing, so the whole component's listing silently disappears; otherwise
the entries surviving the filter, in listing order. -/
def survivingEntries (fs : Fs) (c : Component) : List (Except IoErr String) :=
  match fs.readDir c.manifests_directory with
  | .error _ => []
  | .ok es => es.filter (keepEntry fs c)

/-- The first `flat_map` of `PlatformResourceIterator::new`: the stream of
filtered directory entries of all components, each tagged with its
component, in component-discovery order. -/
def platformEntryStream (fs : Fs) (p : Platform) : List (Except IoErr (Component × String)) :=
  p.components.flatMap (fun c => (survivingEntries fs c).map (·.map (fun n => (c, n))))

/-- The paths the walker passes to `std::fs::File::open`: exactly the `Ok`
entries of the filtered stream (erroring entries are dropped before the
open by `Result::into_iter`). -/
def openedPaths (fs : Fs) (p : Platform) : List FsPath :=
  (platformEntryStream fs p).filterMap fun dr =>
    match dr with
    | .ok (c, n) => some (c.manifests_directory ++ [n])
    | .error _ => none

/-- The items produced for one candidate file: when the open fails, the
`Result::into_iter().flat_map(..).flatten()` adapter yields nothing; when
it succeeds, one item per YAML document — the decoded resource wrapped
with its provenance, or the decode error as it stands. -/
def fileItems (fs : Fs) (p : Platform) (c : Component) (n : String) :
    List (Except String ManifestResource) :=
  match fs.openFile (c.manifests_directory ++ [n]) with
  | .error _ => []
  | .ok docs =>
      docs.map fun doc =>
        (deserialize doc).map fun r =>
          { file := c.manifests_directory ++ [n], component := c, platform := p, resource := r }

/-- The second `flat_map` of `PlatformResourceIterator::new`, applied to one
element of the entry stream: `file_res.into_iter()` yields nothing for an
erroring entry, otherwise the items of the file. -/
def entryItems (fs : Fs) (p : Platform) : Except IoErr (Component × String) →
    List (Except String ManifestResource)
  | .error _ => []
  | .ok (c, n) => fileItems fs p c n

/-- The full output sequence of `PlatformResourceIterator::new` for one
platform (the lazy iterator elaborated to the list of items it yields). -/
def platformResourceList (fs : Fs) (p : Platform) : List (Except String ManifestResource) :=
  (platformEntryStream fs p).flatMap (entryItems fs p)

/-- The output sequence of `SystemManifestsResourceIterator::new`: the
platforms' sequences concatenated in discovery order. -/
def systemResourceList (fs : Fs) (sm : SystemManifests) : List (Except String ManifestResource) :=
  sm.platforms.flatMap (platformResourceList fs)

/-- The names of the candidate manifest files of a component: the `Ok`
entries surviving the walker's filter, in listing order. -/
def survivorNames (fs : Fs) (c : Component) : List String :=
  (survivingEntries fs c).filterMap fun dr =>
    match dr with
    | .ok n => some n
    | .error _ => none

/-- The document stream of a file, empty when the open fails. -/
def docsOf (fs : Fs) (path : FsPath) : List YamlDoc :=
  match fs.openFile path with
  | .ok docs => docs
  | .error _ => []

/-- The listing of a directory succeeded and produced no erroring entry. -/
def cleanListing (fs : Fs) (d : FsPath) : Bool :=
  match fs.readDir d with
  | .error _ => false
  | .ok es =>
      es.all fun x =>
        match x with
        | .ok _ => true
        | .error _ => false

/-- The file opens and every one of its documents decodes successfully. -/
def openAllOk (fs : Fs) (path : FsPath) : Bool :=
  match fs.openFile path with
  | .error _ => false
  | .ok docs =>
      docs.all fun d =>
        match deserialize d with
        | .ok _ => true
        | .error _ => false

/-- A sequence item that is a success. -/
def isOkItem : Except String ManifestResource → Bool
  | .ok _ => true
  | .error _ => false

/-- The entry names of a clean listing, `none` as soon as one entry errors. -/
def okNames : List (Except IoErr String) → Option (List String)
  | [] => some []
  | .ok n :: rest => (okNames rest).map (n :: ·)
  | .error _ :: _ => none

/-- Modelled from the spec: "the set of subdirectory names under `d`" —
the names among a clean listing of `d` whose joined path is a directory,
in listing order.  Used as the comparison side of the discovery claims. -/
def subdirNames (fs : Fs) (d : FsPath) : Option (List String) :=
  match fs.readDir d with
  | .error _ => none
  | .ok es => (okNames es).map fun ns => ns.filter fun n => isDirPath fs (d ++ [n])

/-- Modelled from the spec: the successful item a decodable document of a
file contributes, `none` for an undecodable one. -/
def specDocItem (p : Platform) (c : Component) (n : String) (d : YamlDoc) :
    Option (Except String ManifestResource) :=
  match deserialize d with
  | .ok r =>
      some (.ok { file := c.manifests_directory ++ [n], component := c,
                  platform := p, resource := r })
  | .error _ => none

/-- Modelled from the spec: the walker output the spec's ordering property
describes — for each platform in root-discovery order, each component in
component-discovery order, each surviving file in listing order, one
successful item per decodable document in document order. -/
def specWalkOutput (fs : Fs) (sm : SystemManifests) : List (Except String ManifestResource) :=
  sm.platforms.flatMap fun p =>
    p.components.flatMap fun c =>
      (survivorNames fs c).flatMap fun n =>
        (docsOf fs (c.manifests_directory ++ [n])).filterMap (specDocItem p c n)

/-- The per-file document counts D1..DN of the whole corpus, one entry per
surviving file, in walk order. -/
def walkerDocCounts (fs : Fs) (sm : SystemManifests) : List Nat :=
  sm.platforms.flatMap fun p =>
    p.components.flatMap fun c =>
      (survivorNames fs c).map fun n =>
        (docsOf fs (c.manifests_directory ++ [n])).length

/-! Concrete filesystems used to exhibit behaviours and to instantiate the
general theorems. -/

/-- A resource with no type discriminator and default metadata. -/
def obj0 : DynamicObject := { types := none, metadata := {}, data := [] }

/-- A document that decodes to `obj0`. -/
def docOk : YamlDoc := ⟨.ok obj0⟩

/-- A document that fails to decode. -/
def docBad : YamlDoc := ⟨.error "boom"⟩

def comp1 : Component := { manifests_directory := ["m", "P", "comp"], name := "comp" }

def plat1 : Platform :=
  { name := "P", environment_directory := ["e", "P"], cluster_directory := ["cl", "P"]
    manifests_directory := ["m", "P"], components := [comp1] }

/-- One component with two candidate files; `a.yaml` cannot be opened,
`b.yaml` holds one good document. -/
def fs1 : Fs :=
  { metadata := fun p =>
      if p = ["m", "P", "comp", "a.yaml"] ∨ p = ["m", "P", "comp", "b.yaml"] then .ok .file
      else .ok .dir
    readDir := fun p =>
      if p = ["m", "P", "comp"] then .ok [.ok "a.yaml", .ok "b.yaml"] else .error .notFound
    openFile := fun p =>
      if p = ["m", "P", "comp", "b.yaml"] then .ok [docOk] else .error .permissionDenied }

def res1b : ManifestResource :=
  { file := ["m", "P", "comp", "b.yaml"], component := comp1, platform := plat1, resource := obj0 }

def comp2 : Component := { manifests_directory := ["m", "Q", "comp"], name := "comp" }

def plat2 : Platform :=
  { name := "Q", environment_directory := ["e", "Q"], cluster_directory := ["cl", "Q"]
    manifests_directory := ["m", "Q"], components := [comp2] }

/-- One component whose listing errors on its middle entry; the two good
files hold one good document each. -/
def fs2 : Fs :=
  { metadata := fun p =>
      if p = ["m", "Q", "comp", "a.yaml"] ∨ p = ["m", "Q", "comp", "b.yaml"] then .ok .file
      else .ok .dir
    readDir := fun p =>
      if p = ["m", "Q", "comp"] then
        .ok [.ok "a.yaml", .error .permissionDenied, .ok "b.yaml"]
      else .error .notFound
    openFile := fun p =>
      if p = ["m", "Q", "comp", "a.yaml"] ∨ p = ["m", "Q", "comp", "b.yaml"] then .ok [docOk]
      else .error .notFound }

def res2a : ManifestResource :=
  { file := ["m", "Q", "comp", "a.yaml"], component := comp2, platform := plat2, resource := obj0 }

def res2b : ManifestResource :=
  { file := ["m", "Q", "comp", "b.yaml"], component := comp2, platform := plat2, resource := obj0 }

def comp3a : Component := { manifests_directory := ["m", "R", "ca"], name := "ca" }

def comp3b : Component := { manifests_directory := ["m", "R", "cb"], name := "cb" }

def plat3 : Platform :=
  { name := "R", environment_directory := ["e", "R"], cluster_directory := ["cl", "R"]
    manifests_directory := ["m", "R"], components := [comp3a, comp3b] }

/-- Two components; `ca/a.yaml` holds one undecodable document (index 1),
`cb/b.yaml` holds a good document followed by an undecodable one (index 2). -/
def fs3 : Fs :=
  { metadata := fun p =>
      if p = ["m", "R", "ca", "a.yaml"] ∨ p = ["m", "R", "cb", "b.yaml"] then .ok .file
      else .ok .dir
    readDir := fun p =>
      if p = ["m", "R", "ca"] then .ok [.ok "a.yaml"]
      else if p = ["m", "R", "cb"] then .ok [.ok "b.yaml"]
      else .error .notFound
    openFile := fun p =>
      if p = ["m", "R", "ca", "a.yaml"] then .ok [docBad]
      else if p = ["m", "R", "cb", "b.yaml"] then .ok [docOk, docBad]
      else .error .notFound }

def res3b : ManifestResource :=
  { file := ["m", "R", "cb", "b.yaml"], component := comp3b, platform := plat3, resource := obj0 }

def comp3w : Component := { manifests_directory := ["m", "W", "cw"], name := "cw" }

def plat3w : Platform :=
  { name := "W", environment_directory := ["e", "W"], cluster_directory := ["cl", "W"]
    manifests_directory := ["m", "W"], components := [comp3w] }

/-- One file of three documents whose middle document is undecodable. -/
def fs3w : Fs :=
  { metadata := fun _ => .ok .dir
    readDir := fun _ => .error .notFound
    openFile := fun p =>
      if p = ["m", "W", "cw", "t.yaml"] then .ok [docOk, docBad, docOk] else .error .notFound }

def res3w : ManifestResource :=
  { file := ["m", "W", "cw", "t.yaml"], component := comp3w, platform := plat3w, resource := obj0 }

/-- A convention-respecting root whose single platform directory name
`a.b` carries an embedded dot. -/
def fs4 : Fs :=
  { metadata := fun p =>
      if p = ["r", "clusters"] ∨ p = ["r", "clusters", "a.b"] ∨ p = ["r", "environments", "a.b"]
          ∨ p = ["r", "manifests", "a.b"] then .ok .dir
      else .error .notFound
    readDir := fun p =>
      if p = ["r", "clusters"] then .ok [.ok "a.b"]
      else if p = ["r", "manifests", "a.b"] then .ok []
      else .error .notFound
    openFile := fun _ => .error .notFound }

/-- A convention-respecting root with dot-free names: platform `p1` with
component `c1`. -/
def fs4w : Fs :=
  { metadata := fun p =>
      if p = ["r", "clusters"] ∨ p = ["r", "clusters", "p1"] ∨ p = ["r", "environments", "p1"]
          ∨ p = ["r", "manifests", "p1"] ∨ p = ["r", "manifests", "p1", "c1"] then .ok .dir
      else .error .notFound
    readDir := fun p =>
      if p = ["r", "clusters"] then .ok [.ok "p1"]
      else if p = ["r", "manifests", "p1"] then .ok [.ok "c1"]
      else .error .notFound
    openFile := fun _ => .error .notFound }

def plat4w : Platform :=
  { name := "p1", environment_directory := ["r", "environments", "p1"]
    cluster_directory := ["r", "clusters", "p1"], manifests_directory := ["r", "manifests", "p1"]
    components := [{ manifests_directory := ["r", "manifests", "p1", "c1"], name := "c1" }] }

def sm4w : SystemManifests := { directory := ["r"], platforms := [plat4w] }

/-- A filesystem on which every metadata call fails. -/
def fs5 : Fs :=
  { metadata := fun _ => .error .notFound
    readDir := fun _ => .error .notFound
    openFile := fun _ => .error .notFound }

def comp6 : Component := { manifests_directory := ["m", "S", "comp"], name := "comp" }

def plat6 : Platform :=
  { name := "S", environment_directory := ["e", "S"], cluster_directory := ["cl", "S"]
    manifests_directory := ["m", "S"], components := [comp6] }

def sm6 : SystemManifests := { directory := ["r6"], platforms := [plat6] }

/-- One component with files `one.yaml` (one document), `two.yml` (two
documents) and a non-YAML file `skip.txt`. -/
def fs6 : Fs :=
  { metadata := fun p =>
      if p = ["m", "S", "comp", "one.yaml"] ∨ p = ["m", "S", "comp", "two.yml"]
          ∨ p = ["m", "S", "comp", "skip.txt"] then .ok .file
      else .ok .dir
    readDir := fun p =>
      if p = ["m", "S", "comp"] then .ok [.ok "one.yaml", .ok "two.yml", .ok "skip.txt"]
      else .error .notFound
    openFile := fun p =>
      if p = ["m", "S", "comp", "one.yaml"] then .ok [docOk]
      else if p = ["m", "S", "comp", "two.yml"] then .ok [docOk, docOk]
      else .error .notFound }

def comp8 : Component := { manifests_directory := ["m", "T", "comp"], name := "comp" }

def plat8 : Platform :=
  { name := "T", environment_directory := ["e", "T"], cluster_directory := ["cl", "T"]
    manifests_directory := ["m", "T"], components := [comp8] }

/-- One component holding a text file, a subdirectory and one YAML file. -/
def fs8 : Fs :=
  { metadata := fun p =>
      if p = ["m", "T", "comp", "notes.txt"] ∨ p = ["m", "T", "comp", "good.yaml"] then .ok .file
      else .ok .dir
    readDir := fun p =>
      if p = ["m", "T", "comp"] then .ok [.ok "notes.txt", .ok "sub", .ok "good.yaml"]
      else .error .notFound
    openFile := fun p =>
      if p = ["m", "T", "comp", "good.yaml"] then .ok [docOk] else .error .notFound }

/-- A filesystem on which every call fails with a permission error: every
path exists conceptually but none is readable. -/
def fs9 : Fs :=
  { metadata := fun _ => .error .permissionDenied
    readDir := fun _ => .error .permissionDenied
    openFile := fun _ => .error .permissionDenied }

def comp10 : Component := { manifests_directory := ["r", "manifests", "P", "comp"], name := "comp" }

def plat10 : Platform :=
  { name := "P", environment_directory := ["r", "environments", "P"]
    cluster_directory := ["r", "clusters", "P"], manifests_directory := ["r", "manifests", "P"]
    components := [comp10] }

def sm10 : SystemManifests := { directory := ["r"], platforms := [plat10] }

/-- A convention-respecting root with platform `P` and component `comp`. -/
def fs10 : Fs :=
  { metadata := fun p =>
      if p = ["r", "clusters"] ∨ p = ["r", "clusters", "P"] ∨ p = ["r", "environments", "P"]
          ∨ p = ["r", "manifests", "P"] ∨ p = ["r", "manifests", "P", "comp"] then .ok .dir
      else .error .notFound
    readDir := fun p =>
      if p = ["r", "clusters"] then .ok [.ok "P"]
      else if p = ["r", "manifests", "P"] then .ok [.ok "comp"]
      else .error .notFound
    openFile := fun _ => .error .notFound }

/-- The component value discovery produces for a dot-free subdirectory
name of a manifests directory. -/
def mkComponentAt (man : FsPath) (c : String) : Component :=
  { manifests_directory := man ++ [c], name := c }

/-- The platform value discovery produces for a dot-free platform name on
a convention-respecting root. -/
def mkPlatformAt (fs : Fs) (root : FsPath) (n : String) : Platform :=
  { name := n
    environment_directory := root ++ ["environments", n]
    cluster_directory := root ++ ["clusters", n]
    manifests_directory := root ++ ["manifests", n]
    components := ((subdirNames fs (root ++ ["manifests", n])).getD []).map
      (mkComponentAt (root ++ ["manifests", n])) }

/-! Helper lemmas. -/

theorem validate_cons_dir (fs : Fs) (d : FsPath) (rest : List FsPath)
    (h : fs.metadata d = .ok .dir) :
    validate_directories_exist fs (d :: rest) = validate_directories_exist fs rest := by
  simp [validate_directories_exist, h]

theorem validate_singleton_metadata (fs : Fs) (d : FsPath)
    (h : validate_directories_exist fs [d] = .ok ()) :
    fs.metadata d = .ok .dir := by
  revert h
  unfold validate_directories_exist
  cases hm : fs.metadata d with
  | ok m =>
      cases m with
      | dir => intro _; rfl
      | file => intro h; simp at h
      | other => intro h; simp at h
  | error e => intro h; simp at h

/-! Theorems for the claims. -/

/-- C7: the projection `From<ManifestResource> for FlatManifestResource` is a
total pure function; it copies the source file, the component name, the
platform name and the resource's metadata verbatim (the metadata field is
always present on a decoded resource, with `none` entries when absent in
the document, so the projection cannot fail). -/
theorem c7_projection_total (r : ManifestResource) :
    (FlatManifestResource.ofManifestResource r).file = r.file ∧
    (FlatManifestResource.ofManifestResource r).component_name = r.component.name ∧
    (FlatManifestResource.ofManifestResource r).platform_name = r.platform.name ∧
    (FlatManifestResource.ofManifestResource r).resource_meta = r.resource.metadata :=
  ⟨rfl, rfl, rfl, rfl⟩

/-- C9: `validate_directories_exist` reports the "does not exist" message
for every path whose metadata cannot be retrieved, whatever the error
(including a permission error on an existing path); the "not a directory"
message arises exactly when metadata is readable and reports a
non-directory, and a readable directory passes — so unreadable paths are
indistinguishable from missing ones in the validator's output. -/
theorem c9_validator_messages (fs : Fs) (p : FsPath) :
    (∀ e : IoErr, fs.metadata p = .error e →
      validate_directories_exist fs [p] =
        .error ("Directory does not exist: " ++ FsPath.display p)) ∧
    (∀ m : FileType, fs.metadata p = .ok m → m ≠ .dir →
      validate_directories_exist fs [p] =
        .error ("Path exists but is not a directory: " ++ FsPath.display p)) ∧
    (fs.metadata p = .ok .dir → validate_directories_exist fs [p] = .ok ()) := by
  refine ⟨fun e he => ?_, fun m hm hnd => ?_, fun hd => ?_⟩
  · simp [validate_directories_exist, he]
  · simp [validate_directories_exist, hm, hnd]
  · simp [validate_directories_exist, hd]

/-- Witness for C9: on a filesystem answering only permission errors, the
validator reports the path as not existing. -/
theorem c9_validator_messages_witness :
    validate_directories_exist fs9 [["x"]] =
      .error ("Directory does not exist: " ++ FsPath.display ["x"]) :=
  (c9_validator_messages fs9 ["x"]).1 .permissionDenied rfl

/-- C5: when the metadata of `environments/<name>` cannot be read (in
particular when the directory is missing), `Platform::new` returns the
error naming that exact path.  The equation holds for every filesystem
satisfying only that one hypothesis, whatever the contents of the
`manifests` tree, so no component discovery influences the outcome, and
the result is an error, never a partially built `Platform`. -/
theorem c5_missing_environment (fs : Fs) (name : String) (root : FsPath) (e : IoErr)
    (h : fs.metadata (root ++ ["environments", name]) = .error e) :
    Platform.new fs name root =
      .error ("Failed to obtain platform directories: "
        ++ ("Directory does not exist: " ++ FsPath.display (root ++ ["environments", name]))) := by
  simp [Platform.new, validate_directories_exist, h]

/-- Witness for C5 on a filesystem with no readable path. -/
theorem c5_missing_environment_witness :
    Platform.new fs5 "p" ["r"] =
      .error ("Failed to obtain platform directories: "
        ++ ("Directory does not exist: " ++ FsPath.display ["r", "environments", "p"])) :=
  c5_missing_environment fs5 "p" ["r"] .notFound rfl

/-- C1 is refuted by the code: `a.yaml` passes the walker's filter, its
open fails, yet the output sequence contains no error item for it — the
file is silently removed (the `Result::into_iter` adapters inside the
second `flat_map` drop the `Err` of `File::open`). -/
theorem c1_open_failure_counterexample :
    keepEntry fs1 comp1 (Except.ok "a.yaml") = true ∧
    fs1.openFile (comp1.manifests_directory ++ ["a.yaml"]) = .error .permissionDenied ∧
    platformResourceList fs1 plat1 = [.ok res1b] := by
  decide

/-- C1 (amended): when a candidate file that survived the filter cannot be
opened, the walker yields no item at all for that file — silently removing
it from the sequence — and then continues with the remaining entries; an
open failure never aborts the rest of the walk. -/
theorem c1_open_failure_amended (fs : Fs) (p : Platform) (c : Component) (n : String)
    (e : IoErr) (l1 l2 : List (Except IoErr (Component × String)))
    (hopen : fs.openFile (c.manifests_directory ++ [n]) = .error e)
    (hstream : platformEntryStream fs p = l1 ++ .ok (c, n) :: l2) :
    platformResourceList fs p =
      l1.flatMap (entryItems fs p) ++ l2.flatMap (entryItems fs p) := by
  unfold platformResourceList
  rw [hstream]
  simp [List.flatMap_append, List.flatMap_cons, entryItems, fileItems, hopen]

/-- Witness for the amended C1 at the concrete filesystem `fs1`. -/
theorem c1_open_failure_amended_witness :
    platformResourceList fs1 plat1 =
      ([] : List (Except IoErr (Component × String))).flatMap (entryItems fs1 plat1)
        ++ [Except.ok (comp1, "b.yaml")].flatMap (entryItems fs1 plat1) :=
  c1_open_failure_amended fs1 plat1 comp1 "a.yaml" .permissionDenied
    [] [.ok (comp1, "b.yaml")] rfl (by decide)

/-- C2 evaluated at the failing input: the erroring middle entry of the
listing survives the filter (the arm the source comments `propagate
errors`), yet the output sequence contains no error item at its position —
`file_res.into_iter()` drops it before the open stage. -/
theorem c2_listing_error_dropped_eval :
    keepEntry fs2 comp2 (Except.error IoErr.permissionDenied) = true ∧
    platformEntryStream fs2 plat2 =
      [.ok (comp2, "a.yaml"), .error .permissionDenied, .ok (comp2, "b.yaml")] ∧
    platformResourceList fs2 plat2 = [.ok res2a, .ok res2b] := by
  decide

/-- C3 is refuted by the code: the error item produced for an undecodable
document is the decode error alone.  Here the undecodable document of
`ca/a.yaml` (document index 1) and the one of `cb/b.yaml` (document index
2) produce the very same item, although their file paths and document
indices differ — so the item carries neither the file path nor the index. -/
theorem c3_decode_error_counterexample :
    platformResourceList fs3 plat3 = [.error "boom", .ok res3b, .error "boom"] ∧
    comp3a.manifests_directory ++ ["a.yaml"] ≠ comp3b.manifests_directory ++ ["b.yaml"] ∧
    (platformResourceList fs3 plat3).get? 0 = (platformResourceList fs3 plat3).get? 2 := by
  decide

/-- C3 (amended): a document that fails to decode yields exactly one error
item carrying the decode error itself (not the file path or the document
index), and walking continues with the following documents: a file of
three documents whose second is malformed yields success, error, success. -/
theorem c3_decode_error_amended (fs : Fs) (p : Platform) (c : Component) (n : String)
    (d1 d2 d3 : YamlDoc) (r1 r3 : DynamicObject) (e : String)
    (hopen : fs.openFile (c.manifests_directory ++ [n]) = .ok [d1, d2, d3])
    (h1 : deserialize d1 = .ok r1) (h2 : deserialize d2 = .error e)
    (h3 : deserialize d3 = .ok r3) :
    fileItems fs p c n =
      [.ok { file := c.manifests_directory ++ [n], component := c, platform := p, resource := r1 },
        .error e,
        .ok { file := c.manifests_directory ++ [n], component := c, platform := p, resource := r3 }] := by
  simp [fileItems, hopen, h1, h2, h3, Except.map]

/-- Witness for the amended C3 on a three-document file. -/
theorem c3_decode_error_amended_witness :
    fileItems fs3w plat3w comp3w "t.yaml" = [.ok res3w, .error "boom", .ok res3w] :=
  c3_decode_error_amended fs3w plat3w comp3w "t.yaml" docOk docBad docOk obj0 obj0 "boom"
    rfl rfl rfl rfl

/-- C4 is refuted by the code: for a convention-respecting root whose
platform directory is named `a.b`, discovery returns the file stem `a`
(the source calls `file_stem`, not `file_name`), so the platform set
differs from the subdirectory set and resolution then fails looking for
`environments/a`. -/
theorem c4_resolution_counterexample :
    fs4.metadata ["r", "clusters", "a.b"] = .ok .dir ∧
    fs4.metadata ["r", "environments", "a.b"] = .ok .dir ∧
    fs4.metadata ["r", "manifests", "a.b"] = .ok .dir ∧
    subdirNames fs4 ["r", "clusters"] = some ["a.b"] ∧
    get_cluster_names_from_clusters_directories fs4 ["r", "clusters"] = .ok ["a"] ∧
    SystemManifests.new fs4 ["r"] =
      .error ("Failed to obtain platform directories: "
        ++ ("Directory does not exist: " ++ FsPath.display ["r", "environments", "a"])) := by
  decide

theorem collectResult_mem {α β : Type} {ε : Type} (f : α → Except ε β) (xs : List α)
    (ys : List β) (h : collectResult f xs = .ok ys) :
    ∀ y ∈ ys, ∃ x ∈ xs, f x = .ok y := by
  induction xs generalizing ys with
  | nil =>
      unfold collectResult at h
      cases h
      simp
  | cons x xs ih =>
      unfold collectResult at h
      revert h
      cases hf : f x with
      | error e => intro h; cases h
      | ok y0 =>
          cases hc : collectResult f xs with
          | error e => intro h; cases h
          | ok ys0 =>
              intro h
              cases h
              intro y hy
              rcases List.mem_cons.mp hy with hy0 | hys
              · exact ⟨x, List.mem_cons_self x xs, hy0 ▸ hf⟩
              · rcases ih ys0 hc y hys with ⟨x', hx', hfx'⟩
                exact ⟨x', List.mem_cons_of_mem x hx', hfx'⟩

theorem collectResult_ok_map {α β : Type} {ε : Type} (f : α → Except ε β) (g : α → β)
    (xs : List α) (h : ∀ x ∈ xs, f x = .ok (g x)) :
    collectResult f xs = .ok (xs.map g) := by
  induction xs with
  | nil => rfl
  | cons x xs ih =>
      unfold collectResult
      rw [h x (List.mem_cons_self x xs), ih (fun a ha => h a (List.mem_cons_of_mem x ha))]
      rfl

theorem clusterNamesLoop_clean (fs : Fs) (d : FsPath) (es : List (Except IoErr String))
    (ns : List String) (h : okNames es = some ns) :
    clusterNamesLoop fs d es =
      .ok ((ns.filter fun n => isDirPath fs (d ++ [n])).map fileStem) := by
  induction es generalizing ns with
  | nil =>
      unfold okNames at h
      cases h
      rfl
  | cons x es ih =>
      cases x with
      | error e => unfold okNames at h; cases h
      | ok n =>
          unfold okNames at h
          revert h
          cases ho : okNames es with
          | none => intro h; cases h
          | some ns' =>
              intro h
              injection h with h2
              subst h2
              unfold clusterNamesLoop
              by_cases hd : isDirPath fs (d ++ [n]) = true
              · simp [hd, ih ns' ho, List.filter_cons, Except.map]
              · have hd' : isDirPath fs (d ++ [n]) = false := by
                  revert hd; cases isDirPath fs (d ++ [n]) <;> simp
                simp [hd', ih ns' ho, List.filter_cons]

theorem componentNamesLoop_clean (fs : Fs) (d : FsPath) (es : List (Except IoErr String))
    (ns : List String) (h : okNames es = some ns) :
    componentNamesLoop fs d es =
      .ok ((ns.filter fun n => isDirPath fs (d ++ [n])).map fileStem) := by
  induction es generalizing ns with
  | nil =>
      unfold okNames at h
      cases h
      rfl
  | cons x es ih =>
      cases x with
      | error e => unfold okNames at h; cases h
      | ok n =>
          unfold okNames at h
          revert h
          cases ho : okNames es with
          | none => intro h; cases h
          | some ns' =>
              intro h
              injection h with h2
              subst h2
              unfold componentNamesLoop
              by_cases hd : isDirPath fs (d ++ [n]) = true
              · simp [hd, ih ns' ho, List.filter_cons, Except.map]
              · have hd' : isDirPath fs (d ++ [n]) = false := by
                  revert hd; cases isDirPath fs (d ++ [n]) <;> simp
                simp [hd', ih ns' ho, List.filter_cons]

theorem fileStem_of_nodot (n : String) (h : lastEmbeddedDot n.toList 0 none = none) :
    fileStem n = n := by
  unfold fileStem
  rw [h]

theorem buildComponent_ok_inv (fs : Fs) (man : FsPath) (n : String) (c : Component)
    (h : buildComponent fs man n = .ok c) :
    c.name = n ∧ c.manifests_directory = man ++ [n] ∧
      fs.metadata c.manifests_directory = .ok .dir := by
  unfold buildComponent at h
  revert h
  cases hv : validate_directories_exist fs [man ++ [n]] with
  | error e => intro h; cases h
  | ok u =>
      intro h
      cases h
      refine ⟨rfl, rfl, ?_⟩
      cases u
      exact validate_singleton_metadata fs (man ++ [n]) hv

theorem collectResult_components_inv (fs : Fs) (man : FsPath) (names : List String)
    (comps : List Component)
    (h : collectResult (buildComponent fs man) names = .ok comps) :
    comps.map Component.name = names ∧
      ∀ c ∈ comps, c.manifests_directory = man ++ [c.name] ∧
        fs.metadata c.manifests_directory = .ok .dir := by
  induction names generalizing comps with
  | nil =>
      unfold collectResult at h
      cases h
      simp
  | cons n ns ih =>
      unfold collectResult at h
      revert h
      cases hb : buildComponent fs man n with
      | error e => intro h; cases h
      | ok c0 =>
          cases hc : collectResult (buildComponent fs man) ns with
          | error e => intro h; cases h
          | ok cs =>
              intro h
              cases h
              obtain ⟨hn0, hd0, hm0⟩ := buildComponent_ok_inv fs man n c0 hb
              obtain ⟨hns, hinv⟩ := ih cs hc
              constructor
              · simp [hn0, hns]
              · intro c hcmem
                rcases List.mem_cons.mp hcmem with hc0 | hcs
                · subst hc0
                  exact ⟨hn0 ▸ hd0, hm0⟩
                · exact hinv c hcs

theorem Platform_new_ok_inv (fs : Fs) (name : String) (root : FsPath) (p : Platform)
    (h : Platform.new fs name root = .ok p) :
    p.name = name ∧
      p.manifests_directory = root ++ ["manifests", name] ∧
      get_component_names_from_manifest_directory fs p.manifests_directory =
        .ok (p.components.map Component.name) ∧
      ∀ c ∈ p.components,
        c.manifests_directory = p.manifests_directory ++ [c.name] ∧
        fs.metadata c.manifests_directory = .ok .dir := by
  unfold Platform.new at h
  split at h
  next e heq => cases h
  next u heq =>
    split at h
    next e heq2 => cases h
    next names' heq2 =>
      split at h
      next e heq3 => cases h
      next comps heq3 =>
        cases h
        obtain ⟨hns, hinv⟩ :=
          collectResult_components_inv fs (root ++ ["manifests", name]) names' comps heq3
        exact ⟨rfl, rfl, by rw [hns]; exact heq2, hinv⟩

theorem SystemManifests_new_ok_inv (fs : Fs) (root : FsPath) (sm : SystemManifests)
    (h : SystemManifests.new fs root = .ok sm) :
    ∀ p ∈ sm.platforms, ∃ name, Platform.new fs name root = .ok p := by
  unfold SystemManifests.new at h
  split at h
  next e heq => cases h
  next u heq =>
    split at h
    next e heq2 => cases h
    next names heq2 =>
      split at h
      next e heq3 => cases h
      next platforms heq3 =>
        cases h
        intro p hp
        rcases collectResult_mem (fun n => Platform.new fs n root) names platforms heq3 p hp
          with ⟨n, _, hn⟩
        exact ⟨n, hn⟩

/-- C10: in every successfully constructed corpus, every platform's
component list is exactly the discovery output in discovery order, and
each component's manifest directory is the platform's manifests directory
joined with the component's name and was validated to be a directory at
construction time. -/
theorem c10_component_invariant (fs : Fs) (root : FsPath) (sm : SystemManifests)
    (h : SystemManifests.new fs root = .ok sm) :
    ∀ p ∈ sm.platforms,
      get_component_names_from_manifest_directory fs p.manifests_directory =
        .ok (p.components.map Component.name) ∧
      ∀ c ∈ p.components,
        c.manifests_directory = p.manifests_directory ++ [c.name] ∧
        fs.metadata c.manifests_directory = .ok .dir := by
  intro p hp
  obtain ⟨name, hpn⟩ := SystemManifests_new_ok_inv fs root sm h p hp
  obtain ⟨-, -, hcomp, hinv⟩ := Platform_new_ok_inv fs name root p hpn
  exact ⟨hcomp, hinv⟩

/-- Witness for C10 on the concrete corpus rooted at `fs10`. -/
theorem c10_component_invariant_witness :
    get_component_names_from_manifest_directory fs10 plat10.manifests_directory =
      .ok (plat10.components.map Component.name) ∧
    comp10.manifests_directory = plat10.manifests_directory ++ [comp10.name] ∧
    fs10.metadata comp10.manifests_directory = .ok .dir := by
  have h := c10_component_invariant fs10 ["r"] sm10 (by decide) plat10 (by decide)
  exact ⟨h.1, h.2 comp10 (by decide)⟩

theorem validate_one_dir (fs : Fs) (d : FsPath) (h : fs.metadata d = .ok .dir) :
    validate_directories_exist fs [d] = .ok () := by
  rw [validate_cons_dir fs d [] h]
  rfl

theorem validate_three_dirs (fs : Fs) (a b c : FsPath)
    (ha : fs.metadata a = .ok .dir) (hb : fs.metadata b = .ok .dir)
    (hc : fs.metadata c = .ok .dir) :
    validate_directories_exist fs [a, b, c] = .ok () := by
  rw [validate_cons_dir fs a [b, c] ha, validate_cons_dir fs b [c] hb,
    validate_cons_dir fs c [] hc]
  rfl

theorem get_cluster_names_of_subdir (fs : Fs) (d : FsPath) (ns : List String)
    (h : subdirNames fs d = some ns) :
    get_cluster_names_from_clusters_directories fs d = .ok (ns.map fileStem) := by
  unfold get_cluster_names_from_clusters_directories
  unfold subdirNames at h
  split at h
  next e heq => cases h
  next es heq =>
    revert h
    cases ho : okNames es with
    | none => intro h; cases h
    | some ns' =>
        intro h
        injection h with h2
        subst h2
        exact clusterNamesLoop_clean fs d es ns' ho

theorem get_component_names_of_subdir (fs : Fs) (d : FsPath) (ns : List String)
    (h : subdirNames fs d = some ns) :
    get_component_names_from_manifest_directory fs d = .ok (ns.map fileStem) := by
  unfold get_component_names_from_manifest_directory
  unfold subdirNames at h
  split at h
  next e heq => cases h
  next es heq =>
    revert h
    cases ho : okNames es with
    | none => intro h; cases h
    | some ns' =>
        intro h
        injection h with h2
        subst h2
        exact componentNamesLoop_clean fs d es ns' ho

theorem map_fileStem_of_nodot (ns : List String)
    (h : ∀ n ∈ ns, lastEmbeddedDot n.toList 0 none = none) :
    ns.map fileStem = ns := by
  rw [List.map_congr_left (fun n hn => fileStem_of_nodot n (h n hn))]
  exact List.map_id ns

/-- C4 (amended): for every convention-respecting root all of whose
platform and component directory names are free of embedded dots — the
qualification the counterexample forces, because discovery takes the
`file_stem` of each subdirectory name — resolution succeeds, the platform
name list equals the subdirectory name list under `clusters/`, and every
platform's component name list equals the subdirectory name list under
`manifests/<platform>/` (non-directory entries ignored in both cases, as
`subdirNames` only retains directories). -/
theorem c4_resolution_amended (fs : Fs) (root : FsPath) (pnames : List String)
    (hclusters : fs.metadata (root ++ ["clusters"]) = .ok .dir)
    (hsub : subdirNames fs (root ++ ["clusters"]) = some pnames)
    (hdot : ∀ n ∈ pnames, lastEmbeddedDot n.toList 0 none = none)
    (hplat : ∀ n ∈ pnames,
        fs.metadata (root ++ ["environments", n]) = .ok .dir ∧
        fs.metadata (root ++ ["clusters", n]) = .ok .dir ∧
        fs.metadata (root ++ ["manifests", n]) = .ok .dir)
    (hcomp : ∀ n ∈ pnames,
        subdirNames fs (root ++ ["manifests", n]) =
          some ((subdirNames fs (root ++ ["manifests", n])).getD []) ∧
        ∀ c ∈ (subdirNames fs (root ++ ["manifests", n])).getD [],
          lastEmbeddedDot c.toList 0 none = none ∧
          fs.metadata ((root ++ ["manifests", n]) ++ [c]) = .ok .dir) :
    ∃ sm, SystemManifests.new fs root = .ok sm ∧
      sm.platforms.map Platform.name = pnames ∧
      ∀ p ∈ sm.platforms,
        subdirNames fs p.manifests_directory = some (p.components.map Component.name) := by
  have hplatok : ∀ n ∈ pnames, Platform.new fs n root = .ok (mkPlatformAt fs root n) := by
    intro n hn
    obtain ⟨he, hcl, hm⟩ := hplat n hn
    obtain ⟨hsome, hcs⟩ := hcomp n hn
    have hg : get_component_names_from_manifest_directory fs (root ++ ["manifests", n]) =
        .ok ((subdirNames fs (root ++ ["manifests", n])).getD []) := by
      rw [get_component_names_of_subdir fs (root ++ ["manifests", n]) _ hsome,
        map_fileStem_of_nodot _ (fun c hc => (hcs c hc).1)]
    have hbc : ∀ c ∈ (subdirNames fs (root ++ ["manifests", n])).getD [],
        buildComponent fs (root ++ ["manifests", n]) c =
          .ok (mkComponentAt (root ++ ["manifests", n]) c) := by
      intro c hc
      unfold buildComponent
      rw [validate_one_dir fs ((root ++ ["manifests", n]) ++ [c]) (hcs c hc).2]
      rfl
    have hcoll := collectResult_ok_map (buildComponent fs (root ++ ["manifests", n]))
      (mkComponentAt (root ++ ["manifests", n]))
      ((subdirNames fs (root ++ ["manifests", n])).getD []) hbc
    unfold Platform.new
    rw [validate_three_dirs fs _ _ _ he hcl hm, hg]
    simp only [hcoll]
    rfl
  have hgc : get_cluster_names_from_clusters_directories fs (root ++ ["clusters"]) =
      .ok pnames := by
    rw [get_cluster_names_of_subdir fs (root ++ ["clusters"]) pnames hsub,
      map_fileStem_of_nodot pnames hdot]
  have hall : collectResult (fun n => Platform.new fs n root) pnames =
      .ok (pnames.map (mkPlatformAt fs root)) :=
    collectResult_ok_map (fun n => Platform.new fs n root) (mkPlatformAt fs root) pnames hplatok
  refine ⟨{ directory := root, platforms := pnames.map (mkPlatformAt fs root) }, ?_, ?_, ?_⟩
  · unfold SystemManifests.new
    rw [validate_one_dir fs (root ++ ["clusters"]) hclusters, hgc]
    simp only [hall]
  · rw [List.map_map]
    show List.map (fun n => n) pnames = pnames
    exact List.map_id' pnames
  · intro p hp
    rcases List.mem_map.mp hp with ⟨n, hn, rfl⟩
    obtain ⟨hsome, -⟩ := hcomp n hn
    have hnames : ((mkPlatformAt fs root n).components.map Component.name) =
        (subdirNames fs (root ++ ["manifests", n])).getD [] := by
      show List.map Component.name
          (((subdirNames fs (root ++ ["manifests", n])).getD []).map
            (mkComponentAt (root ++ ["manifests", n]))) =
        (subdirNames fs (root ++ ["manifests", n])).getD []
      rw [List.map_map]
      show List.map (fun c => c) ((subdirNames fs (root ++ ["manifests", n])).getD []) =
        (subdirNames fs (root ++ ["manifests", n])).getD []
      exact List.map_id' ((subdirNames fs (root ++ ["manifests", n])).getD [])
    rw [hnames]
    exact hsome

/-- Witness for the amended C4 on the concrete dot-free root `fs4w`. -/
theorem c4_resolution_amended_witness :
    SystemManifests.new fs4w ["r"] = .ok sm4w ∧
      sm4w.platforms.map Platform.name = ["p1"] := by
  obtain ⟨sm, hsm, hnames, -⟩ :=
    c4_resolution_amended fs4w ["r"] ["p1"] (by decide) (by decide) (by decide)
      (by decide) (by decide)
  have hc : SystemManifests.new fs4w ["r"] = .ok sm4w := by decide
  rw [hc] at hsm
  injection hsm with h2
  subst h2
  exact ⟨hc, hnames⟩

theorem isFilePath_false_of_isDirPath (fs : Fs) (q : FsPath)
    (h : isDirPath fs q = true) : isFilePath fs q = false := by
  revert h
  unfold isDirPath isFilePath
  cases fs.metadata q with
  | error e => simp
  | ok m => cases m <;> simp

theorem keepEntry_only_dir (fs : Fs) (c c' : Component)
    (h : c'.manifests_directory = c.manifests_directory) (x : Except IoErr String) :
    keepEntry fs c' x = keepEntry fs c x := by
  cases x <;> simp [keepEntry, h]

theorem keepEntry_false_of_bad (fs : Fs) (c : Component) (n : String)
    (hbad : isDirPath fs (c.manifests_directory ++ [n]) = true
      ∨ (isFilePath fs (c.manifests_directory ++ [n]) = true ∧ extIsYaml n = false)) :
    keepEntry fs c (Except.ok n) = false := by
  rcases hbad with hd | ⟨-, he⟩
  · simp [keepEntry, isFilePath_false_of_isDirPath fs _ hd]
  · simp [keepEntry, he]

theorem ok_item_file_opened (fs : Fs) (p : Platform) (r : ManifestResource)
    (h : Except.ok r ∈ platformResourceList fs p) :
    r.file ∈ openedPaths fs p := by
  unfold platformResourceList at h
  rcases List.mem_flatMap.mp h with ⟨dr, hdr, hitem⟩
  cases dr with
  | error e => simp [entryItems] at hitem
  | ok cn =>
      obtain ⟨c', n'⟩ := cn
      have hfile : r.file = c'.manifests_directory ++ [n'] := by
        simp only [entryItems] at hitem
        unfold fileItems at hitem
        revert hitem
        cases fs.openFile (c'.manifests_directory ++ [n']) with
        | error e => simp
        | ok docs =>
            intro hitem
            rcases List.mem_map.mp hitem with ⟨d, _, heq⟩
            revert heq
            cases deserialize d with
            | error e => simp [Except.map]
            | ok r0 =>
                intro heq
                injection heq with h2
                rw [← h2]
      rw [hfile]
      exact List.mem_filterMap.mpr ⟨Except.ok (c', n'), hdr, rfl⟩

/-- C8: a directory entry of a component's manifest directory that is a
subdirectory, or a regular file whose extension is not exactly `yaml` or
`yml`, never survives the filter, is never passed to `File::open`, and no
success item of the platform's output sequence originates from its path
(error items carry no path at all, and arise only from opened files). -/
theorem c8_filter_excludes (fs : Fs) (p : Platform) (c : Component) (n : String)
    (hbad : isDirPath fs (c.manifests_directory ++ [n]) = true
      ∨ (isFilePath fs (c.manifests_directory ++ [n]) = true ∧ extIsYaml n = false)) :
    n ∉ survivorNames fs c ∧
    c.manifests_directory ++ [n] ∉ openedPaths fs p ∧
    ∀ r : ManifestResource, Except.ok r ∈ platformResourceList fs p →
      r.file ≠ c.manifests_directory ++ [n] := by
  have hkeep : ∀ c' : Component, c'.manifests_directory = c.manifests_directory →
      keepEntry fs c' (Except.ok n) = false := by
    intro c' hc'
    rw [keepEntry_only_dir fs c c' hc']
    exact keepEntry_false_of_bad fs c n hbad
  have hsurv : ∀ c' : Component, c'.manifests_directory = c.manifests_directory →
      (Except.ok n) ∉ survivingEntries fs c' := by
    intro c' hc' hmem
    unfold survivingEntries at hmem
    revert hmem
    cases fs.readDir c'.manifests_directory with
    | error e => simp
    | ok es =>
        intro hmem
        have hk := (List.mem_filter.mp hmem).2
        rw [hkeep c' hc'] at hk
        cases hk
  have hopened : c.manifests_directory ++ [n] ∉ openedPaths fs p := by
    intro hmem
    rcases List.mem_filterMap.mp hmem with ⟨dr, hdr, hsome⟩
    cases dr with
    | error e => cases hsome
    | ok cn =>
        obtain ⟨c', n'⟩ := cn
        injection hsome with hq
        have hinj := List.append_inj' hq rfl
        have hn : n' = n := by
          have := hinj.2
          injection this
        have hdirs : c'.manifests_directory = c.manifests_directory := hinj.1
        subst hn
        unfold platformEntryStream at hdr
        rcases List.mem_flatMap.mp hdr with ⟨c'', _, hdr2⟩
        rcases List.mem_map.mp hdr2 with ⟨x, hx, hmapeq⟩
        cases x with
        | error e => cases hmapeq
        | ok m =>
            injection hmapeq with h2
            injection h2 with h3 h4
            subst h4
            have hdir2 : c''.manifests_directory = c.manifests_directory := by
              rw [h3]; exact hdirs
            exact hsurv c'' hdir2 hx
  refine ⟨?_, hopened, ?_⟩
  · intro hmem
    unfold survivorNames at hmem
    rcases List.mem_filterMap.mp hmem with ⟨dr, hdr, hsome⟩
    cases dr with
    | error e => cases hsome
    | ok m =>
        injection hsome with h2
        subst h2
        exact hsurv c rfl hdr
  · intro r hr hfile
    have := ok_item_file_opened fs p r hr
    rw [hfile] at this
    exact hopened this

/-- Witness for C8: the text file and the subdirectory of `fs8` are never
opened. -/
theorem c8_filter_excludes_witness :
    ("notes.txt" ∉ survivorNames fs8 comp8 ∧
      comp8.manifests_directory ++ ["notes.txt"] ∉ openedPaths fs8 plat8) ∧
    ("sub" ∉ survivorNames fs8 comp8 ∧
      comp8.manifests_directory ++ ["sub"] ∉ openedPaths fs8 plat8) :=
  ⟨⟨(c8_filter_excludes fs8 plat8 comp8 "notes.txt" (Or.inr (by decide))).1,
    (c8_filter_excludes fs8 plat8 comp8 "notes.txt" (Or.inr (by decide))).2.1⟩,
   ⟨(c8_filter_excludes fs8 plat8 comp8 "sub" (Or.inl (by decide))).1,
    (c8_filter_excludes fs8 plat8 comp8 "sub" (Or.inl (by decide))).2.1⟩⟩

theorem length_flatMap_sum {α β : Type} (l : List α) (f : α → List β) :
    (l.flatMap f).length = (l.map fun a => (f a).length).sum := by
  induction l with
  | nil => rfl
  | cons a l ih => simp [List.flatMap_cons, ih]

theorem sum_flatMap {α : Type} (l : List α) (f : α → List Nat) :
    (l.flatMap f).sum = (l.map fun a => (f a).sum).sum := by
  induction l with
  | nil => rfl
  | cons a l ih => simp [List.flatMap_cons, ih]

theorem flatMap_flatMap {α β γ : Type} (l : List α) (f : α → List β) (g : β → List γ) :
    (l.flatMap f).flatMap g = l.flatMap (fun a => (f a).flatMap g) := by
  induction l with
  | nil => rfl
  | cons a l ih => simp [List.flatMap_cons, List.flatMap_append, ih]

theorem filterMap_length_all_some {α β : Type} (l : List α) (f : α → Option β)
    (h : ∀ x ∈ l, (f x).isSome = true) : (l.filterMap f).length = l.length := by
  induction l with
  | nil => rfl
  | cons a l ih =>
      have ha := h a (List.mem_cons_self a l)
      rw [List.filterMap_cons]
      cases hf : f a with
      | none => rw [hf] at ha; cases ha
      | some b =>
          simp [ih (fun x hx => h x (List.mem_cons_of_mem a hx))]

theorem survivingEntries_all_ok (fs : Fs) (c : Component)
    (h : cleanListing fs c.manifests_directory = true) :
    ∀ x ∈ survivingEntries fs c, ∃ m, x = .ok m := by
  unfold cleanListing at h
  revert h
  unfold survivingEntries
  cases fs.readDir c.manifests_directory with
  | error e => intro h; cases h
  | ok es =>
      intro h x hx
      have hxe : x ∈ es := (List.mem_filter.mp hx).1
      have hall := List.all_eq_true.mp h x hxe
      cases x with
      | ok m => exact ⟨m, rfl⟩
      | error e => cases hall

theorem entries_flatMap_clean (fs : Fs) (p : Platform) (c : Component)
    (es : List (Except IoErr String)) (hok : ∀ x ∈ es, ∃ m, x = .ok m) :
    (es.map (·.map (fun n => (c, n)))).flatMap (entryItems fs p) =
      (es.filterMap fun dr =>
        match dr with
        | .ok n => some n
        | .error _ => none).flatMap (fun n => fileItems fs p c n) := by
  induction es with
  | nil => rfl
  | cons x es ih =>
      obtain ⟨m, rfl⟩ := hok x (List.mem_cons_self x es)
      rw [List.map_cons, List.flatMap_cons, List.filterMap_cons]
      rw [ih (fun a ha => hok a (List.mem_cons_of_mem _ ha))]
      rfl

theorem platform_items_clean (fs : Fs) (p : Platform)
    (hclean : ∀ c ∈ p.components, cleanListing fs c.manifests_directory = true) :
    platformResourceList fs p =
      p.components.flatMap fun c =>
        (survivorNames fs c).flatMap fun n => fileItems fs p c n := by
  unfold platformResourceList platformEntryStream
  rw [flatMap_flatMap]
  apply List.flatMap_congr
  intro c hc
  unfold survivorNames
  exact entries_flatMap_clean fs p c (survivingEntries fs c)
    (survivingEntries_all_ok fs c (hclean c hc))

theorem fileItems_clean (fs : Fs) (p : Platform) (c : Component) (n : String)
    (h : openAllOk fs (c.manifests_directory ++ [n]) = true) :
    fileItems fs p c n =
      (docsOf fs (c.manifests_directory ++ [n])).filterMap (specDocItem p c n) := by
  unfold openAllOk at h
  revert h
  unfold fileItems docsOf
  cases fs.openFile (c.manifests_directory ++ [n]) with
  | error e => intro h; cases h
  | ok docs =>
      intro h
      have h' : (docs.all fun d =>
          match deserialize d with
          | Except.ok _ => true
          | Except.error _ => false) = true := h
      clear h
      show (docs.map fun doc =>
          Except.map (fun r =>
            ({ file := c.manifests_directory ++ [n], component := c, platform := p,
               resource := r } : ManifestResource)) (deserialize doc)) =
        List.filterMap (specDocItem p c n) docs
      induction docs with
      | nil => rfl
      | cons d ds ih =>
          rw [List.all_cons, Bool.and_eq_true] at h'
          obtain ⟨hd, hds⟩ := h'
          rw [List.map_cons, List.filterMap_cons]
          revert hd
          cases hdes : deserialize d with
          | error e => intro hd; cases hd
          | ok r =>
              intro hd
              rw [ih hds]
              simp [specDocItem, hdes, Except.map]

theorem specDocItem_isSome_of_openAllOk (fs : Fs) (p : Platform) (c : Component) (n : String)
    (h : openAllOk fs (c.manifests_directory ++ [n]) = true) :
    ∀ d ∈ docsOf fs (c.manifests_directory ++ [n]), (specDocItem p c n d).isSome = true := by
  unfold openAllOk at h
  revert h
  unfold docsOf
  cases fs.openFile (c.manifests_directory ++ [n]) with
  | error e => intro h; cases h
  | ok docs =>
      intro h d hd
      have h' : (docs.all fun x =>
          match deserialize x with
          | Except.ok _ => true
          | Except.error _ => false) = true := h
      have hd' : d ∈ docs := hd
      have hall := List.all_eq_true.mp h' d hd'
      unfold specDocItem
      revert hall
      cases deserialize d <;> simp

theorem specWalkOutput_all_ok (fs : Fs) (sm : SystemManifests) :
    ∀ x ∈ specWalkOutput fs sm, isOkItem x = true := by
  intro x hx
  unfold specWalkOutput at hx
  rcases List.mem_flatMap.mp hx with ⟨p, _, hx⟩
  rcases List.mem_flatMap.mp hx with ⟨c, _, hx⟩
  rcases List.mem_flatMap.mp hx with ⟨n, _, hx⟩
  rcases List.mem_filterMap.mp hx with ⟨d, _, hd⟩
  revert hd
  unfold specDocItem
  cases deserialize d with
  | error e => intro hd; cases hd
  | ok r =>
      intro hd
      injection hd with h2
      rw [← h2]
      rfl

/-- C6: when every component's listing is clean and every surviving YAML
file opens with all documents decoding, the walker's output is exactly the
spec's nominal sequence — one success per document, in document order
within each file, files in listing order, components in discovery order,
platforms in root order — its length is the sum of the per-file document
counts D1..DN, and every item is a success. -/
theorem c6_walker_order_count (fs : Fs) (sm : SystemManifests)
    (hclean : ∀ p ∈ sm.platforms, ∀ c ∈ p.components,
      cleanListing fs c.manifests_directory = true)
    (hopen : ∀ p ∈ sm.platforms, ∀ c ∈ p.components, ∀ n ∈ survivorNames fs c,
      openAllOk fs (c.manifests_directory ++ [n]) = true) :
    systemResourceList fs sm = specWalkOutput fs sm ∧
    (systemResourceList fs sm).length = (walkerDocCounts fs sm).sum ∧
    ∀ x ∈ systemResourceList fs sm, isOkItem x = true := by
  have hmain : systemResourceList fs sm = specWalkOutput fs sm := by
    unfold systemResourceList specWalkOutput
    apply List.flatMap_congr
    intro p hp
    rw [platform_items_clean fs p (hclean p hp)]
    apply List.flatMap_congr
    intro c hc
    apply List.flatMap_congr
    intro n hn
    exact fileItems_clean fs p c n (hopen p hp c hc n hn)
  refine ⟨hmain, ?_, ?_⟩
  · rw [hmain]
    unfold specWalkOutput walkerDocCounts
    rw [length_flatMap_sum, sum_flatMap]
    refine congrArg List.sum (List.map_congr_left ?_)
    intro p hp
    rw [length_flatMap_sum, sum_flatMap]
    refine congrArg List.sum (List.map_congr_left ?_)
    intro c hc
    rw [length_flatMap_sum]
    refine congrArg List.sum (List.map_congr_left ?_)
    intro n hn
    exact filterMap_length_all_some _ _
      (specDocItem_isSome_of_openAllOk fs p c n (hopen p hp c hc n hn))
  · rw [hmain]
    exact specWalkOutput_all_ok fs sm

/-- Witness for C6 on the concrete corpus `fs6` (files with one and two
documents, a non-YAML file ignored): three successes, count `1 + 2`. -/
theorem c6_walker_order_count_witness :
    systemResourceList fs6 sm6 = specWalkOutput fs6 sm6 ∧
    (systemResourceList fs6 sm6).length = (walkerDocCounts fs6 sm6).sum ∧
    ∀ x ∈ systemResourceList fs6 sm6, isOkItem x = true :=
  c6_walker_order_count fs6 sm6 (by decide) (by decide)
